import Mathlib

/-!
Shallow embedding of the LQG adapter library (lqg-curve-irm).

The repository contains three structurally similar adapter families:
* the Compound-optimizer pool base adapter
  (src/packages/adapters-library/src/adapters/morpho-compound-v2/products/
   optimizer-borrow/morphoCompoundV2OptimizerBorrowAdapter.ts, second half:
   `LQGBasePoolAdapter`),
* the Aave-optimizer pool base adapter (src/unnamed/part_000,
  `LQGBasePoolAdapter` for LQGAaveV2),
* the vault adapter
  (src/packages/adapters-library/src/adapters/morpho-blue/products/vault/
   morphoBlueVaultAdapter.ts, `LQGBlueVaultAdapter`).

All adapter operations are thin reshapings of JSON-RPC reads.  The embedding
makes every RPC response an explicit input (an "oracle" function or an event
log list) and models each operation as a pure function of those inputs.
`Promise.all` over independent per-market calls is sequentialized; every
theorem below about the results is a membership (per-element) statement, which
is insensitive to the ordering that the event loop would produce.

EVM words (uint256 amounts, balances, decimals) are modelled as `Nat`; the
contracts only ever hand the adapters non-negative integers.  Fallible
JavaScript code is modelled in `Except AdapterError`.
-/

namespace LQG

/-- ERC-20 token metadata (types/erc20Metadata.ts): address, name, symbol,
decimals. -/
structure Erc20Metadata where
  address : String
  name : String
  symbol : String
  decimals : Nat
deriving DecidableEq, Repr

instance : Inhabited Erc20Metadata where
  default := { address := "", name := "", symbol := "", decimals := 0 }

/-- Token type tags (`TokenType.Protocol` / `TokenType.Underlying`). -/
inductive TokenType where
  | protocol
  | underlying
deriving DecidableEq, Repr

/-- A JavaScript promise-rejection reason.  The embedded code observes nothing
about it except its truthiness (`if (err) ...`), so only that bit is kept. -/
structure JsError where
  truthy : Bool
deriving DecidableEq, Repr

/-- Errors thrown by the adapter code:
* `notImplementedError` — `throw new NotImplementedError()`;
* `errorWithMessage msg` — `throw new Error(msg)`;
* `rangeError` — the `RangeError` raised by `10n ** e` for negative `e`;
* `rejection e` — a propagated promise-rejection reason. -/
inductive AdapterError where
  | notImplementedError
  | errorWithMessage (msg : String)
  | rangeError
  | rejection (e : JsError)
deriving DecidableEq, Repr

/-- One entry of the metadata mapping: `{ protocolToken, underlyingToken }`. -/
structure PoolMetadata where
  protocolToken : Erc20Metadata
  underlyingToken : Erc20Metadata
deriving DecidableEq, Repr

instance [DecidableEq ε] [DecidableEq α] : DecidableEq (Except ε α) := fun x y =>
  match x, y with
  | .ok a, .ok b =>
    if h : a = b then .isTrue (by rw [h]) else .isFalse (fun hc => h (Except.ok.inj hc))
  | .ok _, .error _ => .isFalse (fun hc => Except.noConfusion hc)
  | .error _, .ok _ => .isFalse (fun hc => Except.noConfusion hc)
  | .error e, .error f =>
    if h : e = f then .isTrue (by rw [h]) else .isFalse (fun hc => h (Except.error.inj hc))

/-- The metadata mapping: a JavaScript object keyed by protocol-token address.
Modelled as an insertion-ordered association list; property lookup takes the
first (unique) matching key. -/
abbrev Metadata := List (String × PoolMetadata)

/-- JS object property assignment `obj[k] = v`: overwrites in place when the
key is present, otherwise appends (string keys keep insertion order). -/
def recordInsert (md : Metadata) (k : String) (v : PoolMetadata) : Metadata :=
  if md.any (fun p => p.1 == k) then
    md.map (fun p => if p.1 == k then (k, v) else p)
  else
    md ++ [(k, v)]

/-- core/constants/ZERO_ADDRESS. -/
def ZERO_ADDRESS : String := "0x0000000000000000000000000000000000000000"

/-- `_fetchPoolMetadata` (Compound base), `fetchPoolMetadata` (Aave base and
vault adapter) — identical in all three files: look the protocol-token address
up in the metadata mapping; an absent key logs and throws
`new Error('Protocol token pool not found')`. -/
def fetchPoolMetadata (md : Metadata) (protocolTokenAddress : String) :
    Except AdapterError PoolMetadata :=
  match md.lookup protocolTokenAddress with
  | some poolMetadata => .ok poolMetadata
  | none => .error (.errorWithMessage "Protocol token pool not found")

/-- `fetchProtocolTokenMetadata` (pool bases) / `getProtocolToken` (vault):
the protocol-token half of a metadata lookup. -/
def fetchProtocolTokenMetadata (md : Metadata) (protocolTokenAddress : String) :
    Except AdapterError Erc20Metadata := do
  let pm ← fetchPoolMetadata md protocolTokenAddress
  pure pm.protocolToken

/-- `fetchUnderlyingTokensMetadata` (pool bases): the one-element underlying
token list of a metadata lookup. -/
def fetchUnderlyingTokensMetadata (md : Metadata) (protocolTokenAddress : String) :
    Except AdapterError (List Erc20Metadata) := do
  let pm ← fetchPoolMetadata md protocolTokenAddress
  pure [pm.underlyingToken]

/-- `getUnderlyingToken` (vault adapter): the underlying-token half of a
metadata lookup. -/
def getUnderlyingToken (md : Metadata) (protocolTokenAddress : String) :
    Except AdapterError Erc20Metadata := do
  let pm ← fetchPoolMetadata md protocolTokenAddress
  pure pm.underlyingToken

/-- `getProtocolTokens`: `Object.values(metadata).map(p => p.protocolToken)`,
identical in all three adapters. -/
def getProtocolTokens (md : Metadata) : List Erc20Metadata :=
  md.map (fun p => p.2.protocolToken)

/-- Sequentialized model of `Promise.all(xs.map(f))` where each `f` may throw:
the first failure rejects the whole aggregate. -/
def exceptMapM (f : α → Except AdapterError β) : List α → Except AdapterError (List β)
  | [] => .ok []
  | x :: xs => do
    let y ← f x
    let ys ← exceptMapM f xs
    pure (y :: ys)

/-- Sequentialized model of `Promise.all` over a map whose callback pushes a
result onto an accumulator only for some elements (the vault adapter's
`getPositions` loop). -/
def exceptFilterMapM (f : α → Except AdapterError (Option β)) :
    List α → Except AdapterError (List β)
  | [] => .ok []
  | x :: xs => do
    let y? ← f x
    let ys ← exceptFilterMapM f xs
    match y? with
    | some y => pure (y :: ys)
    | none => pure ys

theorem exceptMapM_ok_forall {f : α → Except AdapterError β} :
    ∀ {xs : List α} {ys : List β}, exceptMapM f xs = .ok ys →
      ∀ y ∈ ys, ∃ x ∈ xs, f x = .ok y := by
  intro xs
  induction xs with
  | nil =>
    intro ys h y hy
    simp only [exceptMapM] at h
    cases h
    simp at hy
  | cons x xs ih =>
    intro ys h y hy
    simp only [exceptMapM, bind, Except.bind] at h
    cases hfx : f x with
    | error e => rw [hfx] at h; cases h
    | ok b =>
      rw [hfx] at h
      cases hrest : exceptMapM f xs with
      | error e => rw [hrest] at h; cases h
      | ok bs =>
        rw [hrest] at h
        simp only [pure, Except.pure, Except.ok.injEq] at h
        subst h
        rcases List.mem_cons.mp hy with hy | hy
        · exact ⟨x, List.mem_cons_self x xs, by rw [hfx, hy]⟩
        · obtain ⟨x', hx', hfx'⟩ := ih hrest y hy
          exact ⟨x', List.mem_cons_of_mem _ hx', hfx'⟩

theorem exceptMapM_cons_error {f : α → Except AdapterError β} {x : α} {xs : List α}
    {e : AdapterError} (h : f x = .error e) :
    exceptMapM f (x :: xs) = .error e := by
  simp only [exceptMapM, bind, Except.bind, h]

theorem exceptFilterMapM_ok_forall {f : α → Except AdapterError (Option β)} :
    ∀ {xs : List α} {ys : List β}, exceptFilterMapM f xs = .ok ys →
      ∀ y ∈ ys, ∃ x ∈ xs, f x = .ok (some y) := by
  intro xs
  induction xs with
  | nil =>
    intro ys h y hy
    simp only [exceptFilterMapM] at h
    cases h
    simp at hy
  | cons x xs ih =>
    intro ys h y hy
    simp only [exceptFilterMapM, bind, Except.bind] at h
    cases hfx : f x with
    | error e => rw [hfx] at h; cases h
    | ok b? =>
      rw [hfx] at h
      cases hrest : exceptFilterMapM f xs with
      | error e => rw [hrest] at h; cases h
      | ok bs =>
        rw [hrest] at h
        cases b? with
        | some b =>
          simp only [pure, Except.pure, Except.ok.injEq] at h
          subst h
          rcases List.mem_cons.mp hy with hy | hy
          · exact ⟨x, List.mem_cons_self x xs, by rw [hfx, hy]⟩
          · obtain ⟨x', hx', hfx'⟩ := ih hrest y hy
            exact ⟨x', List.mem_cons_of_mem _ hx', hfx'⟩
        | none =>
          simp only [pure, Except.pure, Except.ok.injEq] at h
          subst h
          obtain ⟨x', hx', hfx'⟩ := ih hrest y hy
          exact ⟨x', List.mem_cons_of_mem _ hx', hfx'⟩

theorem exceptFilterMapM_ok_elements {f : α → Except AdapterError (Option β)} :
    ∀ {xs : List α} {ys : List β}, exceptFilterMapM f xs = .ok ys →
      ∀ x ∈ xs, ∃ r, f x = .ok r := by
  intro xs
  induction xs with
  | nil => intro ys _ x hx; simp at hx
  | cons x xs ih =>
    intro ys h x' hx'
    simp only [exceptFilterMapM, bind, Except.bind] at h
    cases hfx : f x with
    | error e => rw [hfx] at h; cases h
    | ok b? =>
      rw [hfx] at h
      cases hrest : exceptFilterMapM f xs with
      | error e => rw [hrest] at h; cases h
      | ok bs =>
        rcases List.mem_cons.mp hx' with hx' | hx'
        · exact ⟨b?, by rw [hx', hfx]⟩
        · exact ih hrest x' hx'

theorem exceptFilterMapM_ok_of_forall {f : α → Except AdapterError (Option β)} :
    ∀ {xs : List α}, (∀ x ∈ xs, ∃ r, f x = .ok r) →
      ∃ ys, exceptFilterMapM f xs = .ok ys := by
  intro xs
  induction xs with
  | nil => intro _; exact ⟨[], rfl⟩
  | cons x xs ih =>
    intro h
    obtain ⟨r, hr⟩ := h x (List.mem_cons_self x xs)
    obtain ⟨ys, hys⟩ := ih (fun x' hx' => h x' (List.mem_cons_of_mem _ hx'))
    cases r with
    | some b =>
      exact ⟨b :: ys, by simp only [exceptFilterMapM, bind, Except.bind, hr, hys]; rfl⟩
    | none =>
      exact ⟨ys, by simp only [exceptFilterMapM, bind, Except.bind, hr, hys]; rfl⟩

/-- `TokenBalance` (types/adapter.ts): ERC-20 fields plus a raw balance. -/
structure TokenBalance where
  address : String
  name : String
  symbol : String
  decimals : Nat
  balanceRaw : Nat
deriving DecidableEq, Repr

/-- `Underlying`: an underlying-token entry of a position or movement. -/
structure Underlying where
  address : String
  name : String
  symbol : String
  decimals : Nat
  balanceRaw : Nat
  type : TokenType
deriving DecidableEq, Repr

/-- `ProtocolPosition`: a protocol-token balance with its underlying
decomposition.  The vault adapter additionally sets `tokenId`. -/
structure ProtocolPosition where
  address : String
  name : String
  symbol : String
  decimals : Nat
  balanceRaw : Nat
  type : TokenType
  tokenId : Option String := none
  tokens : List Underlying
deriving DecidableEq, Repr

/-- `getUnderlyingTokenBalances` (both pool bases, identical): the single
underlying entry copies the protocol-token balance 1:1. -/
def getUnderlyingTokenBalances (md : Metadata) (protocolTokenBalance : TokenBalance) :
    Except AdapterError (List Underlying) := do
  let pm ← fetchPoolMetadata md protocolTokenBalance.address
  pure [{ address := pm.underlyingToken.address, name := pm.underlyingToken.name,
          symbol := pm.underlyingToken.symbol, decimals := pm.underlyingToken.decimals,
          balanceRaw := protocolTokenBalance.balanceRaw, type := TokenType.underlying }]

namespace BasePool

/-- The map callback inside `LQGBasePoolAdapter.getPositions` (named here for
the proofs): fetch the market's metadata, complete the token balance, and
attach the underlying decomposition. -/
def positionOfBalance (md : Metadata) (pb : String × Nat) :
    Except AdapterError ProtocolPosition := do
  let tokenMetadata ← fetchProtocolTokenMetadata md pb.1
  let underlyingTokenBalances ← getUnderlyingTokenBalances md
    { address := pb.1, balanceRaw := pb.2, name := tokenMetadata.name,
      symbol := tokenMetadata.symbol, decimals := tokenMetadata.decimals }
  pure { address := pb.1, balanceRaw := pb.2, name := tokenMetadata.name,
         symbol := tokenMetadata.symbol, decimals := tokenMetadata.decimals,
         type := TokenType.protocol, tokens := underlyingTokenBalances }

/-- `LQGBasePoolAdapter.getPositions`, character-identical logic in the
Compound base (morphoCompoundV2OptimizerBorrowAdapter.ts) and the Aave base
(src/unnamed/part_000): read every market's balance, drop the balances equal
to 0 (`.filter(pb => pb.balance !== 0n)`), then assemble each remaining
balance into a position.  `bal` is the lens balance oracle — the third tuple
component of `getCurrentSupplyBalanceInOf` / `getCurrentBorrowBalanceInOf`
for the fixed user address and block — keyed by market address. -/
def getPositions (md : Metadata) (bal : String → Nat) :
    Except AdapterError (List ProtocolPosition) :=
  let protocolTokensBalances :=
    (getProtocolTokens md).map (fun market => (market.address, bal market.address))
  let filtered := protocolTokensBalances.filter (fun pb => pb.2 != 0)
  exceptMapM (positionOfBalance md) filtered

end BasePool

/-- JavaScript `String.prototype.toLowerCase` on addresses. -/
def jsToLower (s : String) : String :=
  String.mk (s.data.map Char.toLower)

namespace BlueVault

/-- The token filtering at the start of `LQGBlueVaultAdapter.getPositions`:
when `protocolTokenAddresses` is given, keep the protocol tokens whose
lower-cased address is among the lower-cased inputs. -/
def filteredTokens (md : Metadata) (protocolTokenAddresses : Option (List String)) :
    List Erc20Metadata :=
  match protocolTokenAddresses with
  | some addrs =>
      (getProtocolTokens md).filter
        (fun token => (addrs.map jsToLower).contains (jsToLower token.address))
  | none => getProtocolTokens md

/-- The body of the `filteredTokens.map` callback in
`LQGBlueVaultAdapter.getPositions`: look up the underlying token, read
`balanceOf`, the vault's `decimals()` and the asset's `decimals()`; when the
balance is positive, push a position whose single underlying entry holds
`balanceRaw / 10n ** (vaultDecimal - assetDecimals)` — a negative exponent
raises a `RangeError`.  `bal` and `vDec` are keyed by vault address, `aDec`
by underlying-asset address. -/
def positionOfToken (md : Metadata) (bal vDec aDec : String → Nat)
    (protocolToken : Erc20Metadata) :
    Except AdapterError (Option ProtocolPosition) := do
  let underlyingToken ← getUnderlyingToken md protocolToken.address
  let balanceRaw := bal protocolToken.address
  let vaultDecimal := vDec protocolToken.address
  let assetDecimals := aDec underlyingToken.address
  if 0 < balanceRaw then
    if vaultDecimal < assetDecimals then
      .error .rangeError
    else do
      let underlyingToken2 ← getUnderlyingToken md protocolToken.address
      pure (some
        { tokenId := some protocolToken.address, address := protocolToken.address,
          name := protocolToken.name, symbol := protocolToken.symbol,
          decimals := protocolToken.decimals, balanceRaw := balanceRaw,
          type := TokenType.protocol,
          tokens := [{ address := underlyingToken2.address,
                       name := underlyingToken2.name,
                       symbol := underlyingToken2.symbol,
                       decimals := underlyingToken2.decimals,
                       balanceRaw := balanceRaw / 10 ^ (vaultDecimal - assetDecimals),
                       type := TokenType.underlying }] })
  else
    pure none

/-- `LQGBlueVaultAdapter.getPositions`. -/
def getPositions (md : Metadata) (protocolTokenAddresses : Option (List String))
    (bal vDec aDec : String → Nat) :
    Except AdapterError (List ProtocolPosition) :=
  exceptFilterMapM (positionOfToken md bal vDec aDec)
    (filteredTokens md protocolTokenAddresses)

end BlueVault

/-- `MovementsByBlock`: one historical event reshaped — protocol token,
underlying amounts, block number, transaction hash. -/
structure MovementsByBlock where
  protocolToken : Erc20Metadata
  tokens : List Underlying
  blockNumber : Nat
  transactionHash : String
deriving DecidableEq, Repr

/-- The four optimizer event kinds (`supplied | withdrawn | repaid | borrowed`). -/
inductive PoolEventKind where
  | supplied
  | withdrawn
  | repaid
  | borrowed
deriving DecidableEq, Repr

/-- An optimizer contract event log.  `arg1`/`arg2`/`arg3` are the indexed
address arguments in ABI order (for `Borrowed` only two are indexed and
`arg3` is unused); `amount` is the `_amount` argument. -/
structure PoolEvent where
  kind : PoolEventKind
  arg1 : String
  arg2 : String
  arg3 : String
  amount : Nat
  blockNumber : Nat
  transactionHash : String
deriving DecidableEq, Repr

/-- The event's `_poolToken` argument: the second indexed address for
`Borrowed`, the third for the other kinds. -/
def poolTokenArg (e : PoolEvent) : String :=
  match e.kind with
  | .borrowed => e.arg2
  | _ => e.arg3

/-- Topic filters built by the Compound base `_getMovements`:
`Supplied(undefined, user, addr)`, `Withdrawn(user, undefined, addr)`,
`Repaid(undefined, user, addr)`, `Borrowed(user, addr)`. -/
def compoundFilterMatches (userAddress protocolTokenAddress : String)
    (eventType : PoolEventKind) (e : PoolEvent) : Bool :=
  e.kind == eventType &&
    match eventType with
    | .supplied => e.arg2 == userAddress && e.arg3 == protocolTokenAddress
    | .withdrawn => e.arg1 == userAddress && e.arg3 == protocolTokenAddress
    | .repaid => e.arg2 == userAddress && e.arg3 == protocolTokenAddress
    | .borrowed => e.arg1 == userAddress && e.arg2 == protocolTokenAddress

/-- Topic filters built by the Aave base `getMovements` (src/unnamed/part_000):
`Supplied(undefined, user, addr)`, `Withdrawn(undefined, user, addr)`,
`Repaid(undefined, user, addr)`, `Borrowed(user, addr)`. -/
def aaveFilterMatches (userAddress protocolTokenAddress : String)
    (eventType : PoolEventKind) (e : PoolEvent) : Bool :=
  e.kind == eventType &&
    match eventType with
    | .supplied => e.arg2 == userAddress && e.arg3 == protocolTokenAddress
    | .withdrawn => e.arg2 == userAddress && e.arg3 == protocolTokenAddress
    | .repaid => e.arg2 == userAddress && e.arg3 == protocolTokenAddress
    | .borrowed => e.arg1 == userAddress && e.arg2 == protocolTokenAddress

/-- `contract.queryFilter(filter, fromBlock, toBlock)`: the logs in the block
range whose indexed topics match the filter, in chain order. -/
def queryFilter (log : List PoolEvent) (pred : PoolEvent → Bool)
    (fromBlock toBlock : Nat) : List PoolEvent :=
  log.filter (fun e =>
    pred e && decide (fromBlock ≤ e.blockNumber) && decide (e.blockNumber ≤ toBlock))

namespace CompoundPool

/-- `LQGBasePoolAdapter._getMovements` (Compound base,
morphoCompoundV2OptimizerBorrowAdapter.ts): pre-fetches the queried market's
protocol and underlying token metadata, queries the filtered logs, and maps
each log to a movement whose single underlying entry carries the log's
`_amount` unchanged. -/
def getMovements (md : Metadata) (log : List PoolEvent)
    (userAddress protocolTokenAddress : String) (fromBlock toBlock : Nat)
    (eventType : PoolEventKind) :
    Except AdapterError (List MovementsByBlock) := do
  let protocolToken ← fetchProtocolTokenMetadata md protocolTokenAddress
  let underlyingTokens ← fetchUnderlyingTokensMetadata md protocolTokenAddress
  let underlyingToken := underlyingTokens.headI
  let eventResults := queryFilter log
    (compoundFilterMatches userAddress protocolTokenAddress eventType) fromBlock toBlock
  exceptMapM (fun e =>
    pure { protocolToken := protocolToken,
           tokens := [{ address := underlyingToken.address, name := underlyingToken.name,
                        symbol := underlyingToken.symbol,
                        decimals := underlyingToken.decimals,
                        balanceRaw := e.amount, type := TokenType.underlying }],
           blockNumber := e.blockNumber,
           transactionHash := e.transactionHash }) eventResults

/-- `getWithdrawals`: `_getMovements` with event type `withdrawn`. -/
def getWithdrawals (md : Metadata) (log : List PoolEvent)
    (userAddress protocolTokenAddress : String) (fromBlock toBlock : Nat) :
    Except AdapterError (List MovementsByBlock) :=
  getMovements md log userAddress protocolTokenAddress fromBlock toBlock .withdrawn

/-- `getDeposits`: `_getMovements` with event type `supplied`. -/
def getDeposits (md : Metadata) (log : List PoolEvent)
    (userAddress protocolTokenAddress : String) (fromBlock toBlock : Nat) :
    Except AdapterError (List MovementsByBlock) :=
  getMovements md log userAddress protocolTokenAddress fromBlock toBlock .supplied

/-- `getBorrows`: `_getMovements` with event type `borrowed`. -/
def getBorrows (md : Metadata) (log : List PoolEvent)
    (userAddress protocolTokenAddress : String) (fromBlock toBlock : Nat) :
    Except AdapterError (List MovementsByBlock) :=
  getMovements md log userAddress protocolTokenAddress fromBlock toBlock .borrowed

/-- `getRepays`: `_getMovements` with event type `repaid`. -/
def getRepays (md : Metadata) (log : List PoolEvent)
    (userAddress protocolTokenAddress : String) (fromBlock toBlock : Nat) :
    Except AdapterError (List MovementsByBlock) :=
  getMovements md log userAddress protocolTokenAddress fromBlock toBlock .repaid

end CompoundPool

namespace AavePool

/-- `LQGBasePoolAdapter.getMovements` (Aave base, src/unnamed/part_000):
queries the filtered logs and, per event, re-derives the protocol token by
looking up the event's `_poolToken` argument (the `if (!eventData) return
null` guard is unreachable here since every modelled log carries its
arguments); each underlying entry carries the log's `_amount` unchanged. -/
def getMovements (md : Metadata) (log : List PoolEvent)
    (userAddress protocolTokenAddress : String) (fromBlock toBlock : Nat)
    (eventType : PoolEventKind) :
    Except AdapterError (List MovementsByBlock) :=
  let eventResults := queryFilter log
    (aaveFilterMatches userAddress protocolTokenAddress eventType) fromBlock toBlock
  exceptMapM (fun e => do
    let protocolToken ← fetchProtocolTokenMetadata md (poolTokenArg e)
    let underlyingTokens ← fetchUnderlyingTokensMetadata md (poolTokenArg e)
    pure { protocolToken := protocolToken,
           tokens := underlyingTokens.map (fun u =>
             { address := u.address, name := u.name, symbol := u.symbol,
               decimals := u.decimals, balanceRaw := e.amount,
               type := TokenType.underlying }),
           blockNumber := e.blockNumber,
           transactionHash := e.transactionHash }) eventResults

end AavePool

/-- The two vault event kinds (`deposit | withdraw`). -/
inductive VaultEventKind where
  | deposit
  | withdraw
deriving DecidableEq, Repr

/-- An ERC-4626 vault event log.  `Deposit(sender, owner, assets, shares)`
has two indexed addresses; `Withdraw(sender, receiver, owner, assets, shares)`
has three (for `Deposit` events `receiver` is unused). -/
structure VaultEvent where
  kind : VaultEventKind
  sender : String
  receiver : String
  owner : String
  assets : Nat
  shares : Nat
  blockNumber : Nat
  transactionHash : String
deriving DecidableEq, Repr

/-- Topic filters built by the vault `getMovements`:
`Deposit(undefined, user)` constrains the second indexed address (`owner`),
`Withdraw(undefined, undefined, user)` the third (`owner`). -/
def vaultFilterMatches (userAddress : String) (eventType : VaultEventKind)
    (e : VaultEvent) : Bool :=
  e.kind == eventType &&
    match eventType with
    | .deposit => e.owner == userAddress
    | .withdraw => e.owner == userAddress

/-- `queryFilter` over vault logs. -/
def queryVaultFilter (log : List VaultEvent) (pred : VaultEvent → Bool)
    (fromBlock toBlock : Nat) : List VaultEvent :=
  log.filter (fun e =>
    pred e && decide (fromBlock ≤ e.blockNumber) && decide (e.blockNumber ≤ toBlock))

/-- The JavaScript conversion chain `BigInt(Number(x))` applied to a
non-negative bigint `x` (vault `getMovements` first stores
`balanceRaw: Number(eventData.assets)` and a second pass converts it back
with `BigInt`): `Number` rounds to the nearest IEEE-754 double — a 53-bit
significand, ties to even — and `BigInt` of that integral double is exact.
Faithful for every `x` below the double overflow threshold (about `2 ^ 1024`),
which covers all uint256 amounts. -/
def jsNumberRoundtrip (n : Nat) : Nat :=
  if n < 2 ^ 53 then n
  else
    let k := n.log2 - 52
    let q := n / 2 ^ k
    let r := n % 2 ^ k
    let half := 2 ^ (k - 1)
    if half < r ∨ (r = half ∧ q % 2 = 1) then (q + 1) * 2 ^ k else q * 2 ^ k

namespace BlueVault

/-- `LQGBlueVaultAdapter.getMovements`: pre-fetches the queried vault's
protocol and underlying token metadata, queries the filtered logs, maps each
log to a movement whose underlying entry holds `Number(eventData.assets)`,
and finally re-converts every entry with `BigInt` — the composite is
`jsNumberRoundtrip`. -/
def getMovements (md : Metadata) (log : List VaultEvent)
    (userAddress metaLQGVault : String) (fromBlock toBlock : Nat)
    (eventType : VaultEventKind) :
    Except AdapterError (List MovementsByBlock) := do
  let protocolToken ← fetchProtocolTokenMetadata md metaLQGVault
  let underlyingToken ← getUnderlyingToken md metaLQGVault
  let eventResults := queryVaultFilter log (vaultFilterMatches userAddress eventType)
    fromBlock toBlock
  exceptMapM (fun e =>
    pure { protocolToken := protocolToken,
           tokens := [{ address := underlyingToken.address, name := underlyingToken.name,
                        symbol := underlyingToken.symbol,
                        decimals := underlyingToken.decimals,
                        balanceRaw := jsNumberRoundtrip e.assets,
                        type := TokenType.underlying }],
           blockNumber := e.blockNumber,
           transactionHash := e.transactionHash }) eventResults

/-- `getWithdrawals`: a singleton `Promise.all` around `getMovements` with
event type `withdraw`, flattened. -/
def getWithdrawals (md : Metadata) (log : List VaultEvent)
    (userAddress protocolTokenAddress : String) (fromBlock toBlock : Nat) :
    Except AdapterError (List MovementsByBlock) :=
  getMovements md log userAddress protocolTokenAddress fromBlock toBlock .withdraw

/-- `getDeposits`: a singleton `Promise.all` around `getMovements` with event
type `deposit`, flattened. -/
def getDeposits (md : Metadata) (log : List VaultEvent)
    (userAddress protocolTokenAddress : String) (fromBlock toBlock : Nat) :
    Except AdapterError (List MovementsByBlock) :=
  getMovements md log userAddress protocolTokenAddress fromBlock toBlock .deposit

end BlueVault

/-- `PositionType.Supply` / `PositionType.Borrow`, supplied by the leaf
adapters through `getProtocolDetails().positionType`. -/
inductive PositionType where
  | supply
  | borrow
deriving DecidableEq, Repr

/-- `ProtocolTokenTvl`: token metadata plus the aggregated raw total. -/
structure ProtocolTokenTvl where
  address : String
  name : String
  symbol : String
  decimals : Nat
  type : TokenType
  totalSupplyRaw : Nat
deriving DecidableEq, Repr

/-- The lens contract's market-total views.  Each call returns the ABI pair of
totals for a market; the two adapters destructure the components under
different names but always add both. -/
structure LensOracle where
  getTotalMarketSupply : String → Nat × Nat
  getTotalMarketBorrow : String → Nat × Nat

/-- The `evm-maths` library's `wadDiv` used by the Compound base: multiply by
`WAD = 10 ^ 18` and divide, rounding half up. -/
def wadDiv (x y : Nat) : Nat :=
  (x * 10 ^ 18 + y / 2) / y

namespace CompoundPool

/-- `LQGBasePoolAdapter.getTotalValueLocked` (Compound base): per market,
destructure `[p2p, pool]` from the lens total for the product's position type,
sum them, and wad-divide by the cToken's `exchangeRateStored` (the
`totalValueRaw !== undefined` guard is vacuous — a bigint is never
`undefined`).  `exchangeRateStored` is keyed by market address. -/
def getTotalValueLocked (md : Metadata) (positionType : PositionType)
    (lens : LensOracle) (exchangeRateStored : String → Nat) :
    List ProtocolTokenTvl :=
  (getProtocolTokens md).map (fun tokenMetadata =>
    let totalValueRaw :=
      match positionType with
      | .supply =>
          let r := lens.getTotalMarketSupply tokenMetadata.address
          r.2 + r.1
      | .borrow =>
          let r := lens.getTotalMarketBorrow tokenMetadata.address
          r.2 + r.1
    let exchangeRate := exchangeRateStored tokenMetadata.address
    let totalValueRaw := wadDiv totalValueRaw exchangeRate
    { address := tokenMetadata.address, name := tokenMetadata.name,
      symbol := tokenMetadata.symbol, decimals := tokenMetadata.decimals,
      type := TokenType.protocol, totalSupplyRaw := totalValueRaw })

end CompoundPool

namespace AavePool

/-- `LQGBasePoolAdapter.getTotalValueLocked` (Aave base, src/unnamed/part_000):
per market, destructure `[pool, p2p]` from the lens total for the product's
position type and sum them; no exchange-rate correction is applied. -/
def getTotalValueLocked (md : Metadata) (positionType : PositionType)
    (lens : LensOracle) : List ProtocolTokenTvl :=
  (getProtocolTokens md).map (fun tokenMetadata =>
    let totalValueRaw :=
      match positionType with
      | .supply =>
          let r := lens.getTotalMarketSupply tokenMetadata.address
          r.1 + r.2
      | .borrow =>
          let r := lens.getTotalMarketBorrow tokenMetadata.address
          r.1 + r.2
    { address := tokenMetadata.address, name := tokenMetadata.name,
      symbol := tokenMetadata.symbol, decimals := tokenMetadata.decimals,
      type := TokenType.protocol, totalSupplyRaw := totalValueRaw })

end AavePool

/-- `UnwrapInput`: the argument both pool bases ignore when throwing. -/
structure UnwrapInput where
  protocolTokenAddress : String
  blockNumber : Option Nat := none
deriving DecidableEq, Repr

/-- One underlying entry of an unwrap result. -/
structure UnderlyingRate where
  address : String
  name : String
  symbol : String
  decimals : Nat
  type : TokenType
  underlyingRateRaw : Nat
deriving DecidableEq, Repr

/-- `UnwrapExchangeRate`: protocol-token metadata plus per-underlying rates. -/
structure UnwrapExchangeRate where
  address : String
  name : String
  symbol : String
  decimals : Nat
  baseRate : Nat
  type : TokenType
  tokens : List UnderlyingRate
deriving DecidableEq, Repr

/-- Modelled from the spec: `Helpers.unwrapOneToOne` (scripts/helpers.ts is
not under src/) — the vault adapter "implements unwrap (as a one-to-one
rate)", i.e. one whole protocol token unwraps to exactly one whole underlying
token, a raw rate of `10 ^ decimals` per underlying entry. -/
def unwrapOneToOne (protocolToken : Erc20Metadata)
    (underlyingTokens : List Erc20Metadata) : UnwrapExchangeRate :=
  { address := protocolToken.address, name := protocolToken.name,
    symbol := protocolToken.symbol, decimals := protocolToken.decimals,
    baseRate := 1, type := TokenType.protocol,
    tokens := underlyingTokens.map (fun u =>
      { address := u.address, name := u.name, symbol := u.symbol,
        decimals := u.decimals, type := TokenType.underlying,
        underlyingRateRaw := 10 ^ protocolToken.decimals }) }

namespace CompoundPool

/-- `LQGBasePoolAdapter.unwrap` (Compound base):
`throw new NotImplementedError()` for every input. -/
def unwrap (_input : UnwrapInput) : Except AdapterError UnwrapExchangeRate :=
  .error .notImplementedError

end CompoundPool

namespace AavePool

/-- `LQGBasePoolAdapter.unwrap` (Aave base, src/unnamed/part_000):
`throw new NotImplementedError()` for every input. -/
def unwrap (_input : UnwrapInput) : Except AdapterError UnwrapExchangeRate :=
  .error .notImplementedError

end AavePool

namespace BlueVault

/-- `LQGBlueVaultAdapter.unwrap`: fetch the protocol and underlying token of
the requested vault and return `helpers.unwrapOneToOne` on them. -/
def unwrap (md : Metadata) (protocolTokenAddress : String) :
    Except AdapterError UnwrapExchangeRate := do
  let protocolToken ← fetchProtocolTokenMetadata md protocolTokenAddress
  let underlyingToken ← getUnderlyingToken md protocolTokenAddress
  pure (unwrapOneToOne protocolToken [underlyingToken])

end BlueVault

/-- The chain-side inputs of pool-adapter metadata construction:
* `markets` — the registry enumeration (`getAllMarkets` on the Compound
  optimizer, `getMarketsCreated` on the Aave optimizer);
* `underlyingResult` — the per-market `underlying()` /
  `UNDERLYING_ASSET_ADDRESS()` call, which may reject;
* `tokenMeta` — `getTokenMetadata` (ERC-20 name/symbol/decimals reads),
  keyed by token address. -/
structure PoolChainEnv where
  markets : List String
  underlyingResult : String → Except JsError String
  tokenMeta : String → Erc20Metadata

/-- The `.catch` attached to the underlying-asset call in both pool bases:
`.catch((err) => { if (err) return ZERO_ADDRESS; throw err })` — a truthy
rejection reason becomes the zero-address sentinel, a falsy one is
re-thrown. -/
def resolveSupplyTokenAddress (env : PoolChainEnv) (marketAddress : String) :
    Except JsError String :=
  match env.underlyingResult marketAddress with
  | .ok a => .ok a
  | .error err => if err.truthy then .ok ZERO_ADDRESS else .error err

/-- One iteration of the `markets.map` callback in `buildMetadata` (both pool
bases): resolve the supply-token address, fetch both tokens' metadata, and
assign `metadataObject[protocolToken.address] = {protocolToken,
underlyingToken}`. -/
def buildMetadataStep (env : PoolChainEnv) (acc : Metadata) (marketAddress : String) :
    Except JsError Metadata := do
  let supplyTokenAddress ← resolveSupplyTokenAddress env marketAddress
  let protocolToken := env.tokenMeta marketAddress
  let underlyingToken := env.tokenMeta supplyTokenAddress
  pure (recordInsert acc protocolToken.address
    { protocolToken := protocolToken, underlyingToken := underlyingToken })

/-- The `Promise.all(markets.map(...))` accumulation in `buildMetadata`,
sequentialized. -/
def buildMetadataLoop (env : PoolChainEnv) :
    List String → Metadata → Except JsError Metadata
  | [], acc => .ok acc
  | m :: ms, acc => do
    let acc' ← buildMetadataStep env acc m
    buildMetadataLoop env ms acc'

/-- The metadata object produced by one full registry enumeration — the
shared body of `buildMetadata` in both pool bases. -/
def buildMetadataObject (env : PoolChainEnv) : Except JsError Metadata :=
  buildMetadataLoop env env.markets []

namespace CompoundPool

/-- `LQGBasePoolAdapter.buildMetadata` (Compound base) with its per-instance
`_metadataCache`: a populated cache is returned as is; otherwise the registry
is enumerated once and the cache set.  The result triple is the returned
mapping, the cache field after the call, and whether the registry was
enumerated (`getAllMarkets` invoked) during the call. -/
def buildMetadata (env : PoolChainEnv) (metadataCache : Option Metadata) :
    Except JsError (Metadata × Option Metadata × Bool) :=
  match metadataCache with
  | some md => .ok (md, some md, false)
  | none => do
    let md ← buildMetadataObject env
    pure (md, some md, true)

end CompoundPool

namespace AavePool

/-- `LQGBasePoolAdapter.buildMetadata` (Aave base, src/unnamed/part_000):
no in-memory cache — every direct call re-enumerates the registry. -/
def buildMetadata (env : PoolChainEnv) : Except JsError Metadata :=
  buildMetadataObject env

/-- Modelled from the spec: the `CacheToFile` decorator
(core/decorators/cacheToFile is not under src/) that every Aave leaf adapter
applies to `buildMetadata` "may write the result to a file-backed cache keyed
by a fixed string, and will serve that cache on repeated calls".  The result
triple mirrors `CompoundPool.buildMetadata`: mapping, cache after the call,
and whether the wrapped builder (the registry enumeration) ran. -/
def buildMetadataCached (env : PoolChainEnv) (fileCache : Option Metadata) :
    Except JsError (Metadata × Option Metadata × Bool) :=
  match fileCache with
  | some md => .ok (md, some md, false)
  | none => do
    let md ← buildMetadata env
    pure (md, some md, true)

end AavePool

/-! ### Helper lemmas shared by the claim theorems -/

theorem aaveFilterMatches_poolTokenArg {userAddress protocolTokenAddress : String}
    {eventType : PoolEventKind} {e : PoolEvent}
    (h : aaveFilterMatches userAddress protocolTokenAddress eventType e = true) :
    poolTokenArg e = protocolTokenAddress := by
  unfold aaveFilterMatches at h
  rw [Bool.and_eq_true] at h
  obtain ⟨hkind, hargs⟩ := h
  rw [beq_iff_eq] at hkind
  unfold poolTokenArg
  rw [hkind]
  cases eventType <;>
    simp only [Bool.and_eq_true, beq_iff_eq] at hargs <;>
    exact hargs.2

theorem mem_queryFilter_matches {log : List PoolEvent} {pred : PoolEvent → Bool}
    {fromBlock toBlock : Nat} {e : PoolEvent}
    (h : e ∈ queryFilter log pred fromBlock toBlock) : pred e = true := by
  unfold queryFilter at h
  have := List.of_mem_filter h
  rw [Bool.and_eq_true, Bool.and_eq_true] at this
  exact this.1.1

theorem positionOfBalance_ok {md : Metadata} {pb : String × Nat} {p : ProtocolPosition}
    (h : BasePool.positionOfBalance md pb = .ok p) :
    p.balanceRaw = pb.2 ∧ p.address = pb.1 ∧
      p.tokens.map (fun u => u.balanceRaw) = [pb.2] := by
  unfold BasePool.positionOfBalance at h
  simp only [fetchProtocolTokenMetadata, getUnderlyingTokenBalances, bind,
    Except.bind, pure, Except.pure] at h
  cases hf : fetchPoolMetadata md pb.1 with
  | error e => rw [hf] at h; cases h
  | ok pm =>
    rw [hf] at h
    simp only [Except.ok.injEq] at h
    subst h
    exact ⟨rfl, rfl, rfl⟩

theorem vaultPositionOfToken_ok_some {md : Metadata} {bal vDec aDec : String → Nat}
    {pt : Erc20Metadata} {p : ProtocolPosition}
    (h : BlueVault.positionOfToken md bal vDec aDec pt = .ok (some p)) :
    p.balanceRaw = bal pt.address ∧ 0 < bal pt.address ∧ p.address = pt.address ∧
      ∃ pm, fetchPoolMetadata md pt.address = .ok pm ∧
        aDec pm.underlyingToken.address ≤ vDec pt.address ∧
        p.tokens = [{ address := pm.underlyingToken.address,
                      name := pm.underlyingToken.name,
                      symbol := pm.underlyingToken.symbol,
                      decimals := pm.underlyingToken.decimals,
                      balanceRaw := bal pt.address /
                        10 ^ (vDec pt.address - aDec pm.underlyingToken.address),
                      type := TokenType.underlying }] := by
  cases hf : fetchPoolMetadata md pt.address with
  | error e =>
    unfold BlueVault.positionOfToken at h
    simp only [getUnderlyingToken, hf, bind, Except.bind] at h
    exact Except.noConfusion h
  | ok pm =>
    unfold BlueVault.positionOfToken at h
    simp only [getUnderlyingToken, hf, bind, Except.bind, pure, Except.pure] at h
    by_cases hb : 0 < bal pt.address
    · rw [if_pos hb] at h
      by_cases hd : vDec pt.address < aDec pm.underlyingToken.address
      · rw [if_pos hd] at h; cases h
      · rw [if_neg hd] at h
        simp only [Except.ok.injEq, Option.some.injEq] at h
        subst h
        exact ⟨rfl, hb, rfl, pm, rfl, Nat.le_of_not_lt hd, rfl⟩
    · rw [if_neg hb] at h
      cases h

/-! ### C4 -/

/-- C4: `getPositions` never returns a zero-balance position — the pool base
shared by the Compound and Aave optimizer families filters out balances equal
to `0n` before assembling positions, and the vault adapter only pushes a
position when `balanceRaw > 0n`. -/
theorem getPositions_excludes_zero_balances
    (md mdv : Metadata) (bal balv vDec aDec : String → Nat)
    (filt : Option (List String)) (ps psv : List ProtocolPosition)
    (hpool : BasePool.getPositions md bal = .ok ps)
    (hvault : BlueVault.getPositions mdv filt balv vDec aDec = .ok psv) :
    (∀ p ∈ ps, p.balanceRaw ≠ 0) ∧ (∀ p ∈ psv, p.balanceRaw ≠ 0) := by
  constructor
  · intro p hp
    unfold BasePool.getPositions at hpool
    obtain ⟨pb, hpb, hok⟩ := exceptMapM_ok_forall hpool p hp
    have hne : (pb.2 != 0) = true := (List.mem_filter.mp hpb).2
    rw [bne_iff_ne] at hne
    rw [(positionOfBalance_ok hok).1]
    exact hne
  · intro p hp
    unfold BlueVault.getPositions at hvault
    obtain ⟨pt, _, hok⟩ := exceptFilterMapM_ok_forall hvault p hp
    obtain ⟨hbal, hpos, -⟩ := vaultPositionOfToken_ok_some hok
    rw [hbal]
    exact Nat.pos_iff_ne_zero.mp hpos

/-- Witness for C4: a two-market pool metadata where one balance reads 0 and
a one-vault metadata with a positive balance. -/
theorem getPositions_excludes_zero_balances_witness :
    BasePool.getPositions
      [("0xa", { protocolToken := { address := "0xa", name := "A", symbol := "A",
                                    decimals := 8 },
                 underlyingToken := { address := "0xua", name := "UA", symbol := "UA",
                                      decimals := 18 } }),
       ("0xb", { protocolToken := { address := "0xb", name := "B", symbol := "B",
                                    decimals := 8 },
                 underlyingToken := { address := "0xub", name := "UB", symbol := "UB",
                                      decimals := 18 } })]
      (fun a => if a == "0xa" then 0 else 5) =
      .ok [{ address := "0xb", name := "B", symbol := "B", decimals := 8,
             balanceRaw := 5, type := TokenType.protocol, tokenId := none,
             tokens := [{ address := "0xub", name := "UB", symbol := "UB",
                          decimals := 18, balanceRaw := 5,
                          type := TokenType.underlying }] }] ∧
    BlueVault.getPositions
      [("0xv", { protocolToken := { address := "0xv", name := "V", symbol := "V",
                                    decimals := 18 },
                 underlyingToken := { address := "0xu", name := "U", symbol := "U",
                                      decimals := 6 } })]
      none (fun _ => 1000001) (fun _ => 18) (fun _ => 6) =
      .ok [{ address := "0xv", name := "V", symbol := "V", decimals := 18,
             balanceRaw := 1000001, type := TokenType.protocol, tokenId := some "0xv",
             tokens := [{ address := "0xu", name := "U", symbol := "U",
                          decimals := 6, balanceRaw := 0,
                          type := TokenType.underlying }] }] ∧
    (1000001 : Nat) ≠ 0 ∧ (5 : Nat) ≠ 0 := by
  have h := getPositions_excludes_zero_balances
    [("0xa", { protocolToken := { address := "0xa", name := "A", symbol := "A",
                                  decimals := 8 },
               underlyingToken := { address := "0xua", name := "UA", symbol := "UA",
                                    decimals := 18 } }),
     ("0xb", { protocolToken := { address := "0xb", name := "B", symbol := "B",
                                  decimals := 8 },
               underlyingToken := { address := "0xub", name := "UB", symbol := "UB",
                                    decimals := 18 } })]
    [("0xv", { protocolToken := { address := "0xv", name := "V", symbol := "V",
                                  decimals := 18 },
               underlyingToken := { address := "0xu", name := "U", symbol := "U",
                                    decimals := 6 } })]
    (fun a => if a == "0xa" then 0 else 5) (fun _ => 1000001) (fun _ => 18) (fun _ => 6)
    none
    [{ address := "0xb", name := "B", symbol := "B", decimals := 8,
       balanceRaw := 5, type := TokenType.protocol, tokenId := none,
       tokens := [{ address := "0xub", name := "UB", symbol := "UB",
                    decimals := 18, balanceRaw := 5,
                    type := TokenType.underlying }] }]
    [{ address := "0xv", name := "V", symbol := "V", decimals := 18,
       balanceRaw := 1000001, type := TokenType.protocol, tokenId := some "0xv",
       tokens := [{ address := "0xu", name := "U", symbol := "U",
                    decimals := 6, balanceRaw := 0,
                    type := TokenType.underlying }] }]
    (by decide) (by decide)
  refine ⟨by decide, by decide, ?_, ?_⟩
  · exact h.2 _ (List.mem_singleton.mpr rfl)
  · exact h.1 _ (List.mem_singleton.mpr rfl)

/-! ### C5 -/

/-- C5: the underlying decomposition of every returned position follows the
product's policy — on the pool (optimizer) bases the single underlying entry
copies the protocol-token balance 1:1; on the vault adapter the single
underlying entry holds the protocol-token balance divided by
`10 ^ (vaultDecimals - assetDecimals)`. -/
theorem positions_underlying_decomposition
    (md mdv : Metadata) (bal balv vDec aDec : String → Nat)
    (filt : Option (List String)) (ps psv : List ProtocolPosition)
    (hpool : BasePool.getPositions md bal = .ok ps)
    (hvault : BlueVault.getPositions mdv filt balv vDec aDec = .ok psv) :
    (∀ p ∈ ps, p.tokens.map (fun u => u.balanceRaw) = [p.balanceRaw]) ∧
    (∀ p ∈ psv, ∃ u, p.tokens = [u] ∧
      u.balanceRaw = p.balanceRaw / 10 ^ (vDec p.address - aDec u.address)) := by
  constructor
  · intro p hp
    unfold BasePool.getPositions at hpool
    obtain ⟨pb, _, hok⟩ := exceptMapM_ok_forall hpool p hp
    obtain ⟨hbal, -, htoks⟩ := positionOfBalance_ok hok
    rw [htoks, hbal]
  · intro p hp
    unfold BlueVault.getPositions at hvault
    obtain ⟨pt, _, hok⟩ := exceptFilterMapM_ok_forall hvault p hp
    obtain ⟨hbal, -, haddr, pm, -, -, htoks⟩ := vaultPositionOfToken_ok_some hok
    refine ⟨_, htoks, ?_⟩
    rw [hbal, haddr]

/-- Witness for C5: the vault divides `3000000000005` raw shares by
`10 ^ (18 - 6)`, truncating to `3`; the pool copies the balance 1:1. -/
theorem positions_underlying_decomposition_witness :
    BasePool.getPositions
      [("0xb", { protocolToken := { address := "0xb", name := "B", symbol := "B",
                                    decimals := 8 },
                 underlyingToken := { address := "0xub", name := "UB", symbol := "UB",
                                      decimals := 18 } })]
      (fun _ => 7) =
      .ok [{ address := "0xb", name := "B", symbol := "B", decimals := 8,
             balanceRaw := 7, type := TokenType.protocol, tokenId := none,
             tokens := [{ address := "0xub", name := "UB", symbol := "UB",
                          decimals := 18, balanceRaw := 7,
                          type := TokenType.underlying }] }] ∧
    BlueVault.getPositions
      [("0xv", { protocolToken := { address := "0xv", name := "V", symbol := "V",
                                    decimals := 18 },
                 underlyingToken := { address := "0xu", name := "U", symbol := "U",
                                      decimals := 6 } })]
      none (fun _ => 3000000000005) (fun _ => 18) (fun _ => 6) =
      .ok [{ address := "0xv", name := "V", symbol := "V", decimals := 18,
             balanceRaw := 3000000000005, type := TokenType.protocol,
             tokenId := some "0xv",
             tokens := [{ address := "0xu", name := "U", symbol := "U",
                          decimals := 6, balanceRaw := 3,
                          type := TokenType.underlying }] }] ∧
    (∃ u, ([{ address := "0xu", name := "U", symbol := "U", decimals := 6,
              balanceRaw := 3, type := TokenType.underlying }] : List Underlying) = [u] ∧
      u.balanceRaw = 3000000000005 / 10 ^ (18 - 6)) := by
  have h := positions_underlying_decomposition
    [("0xb", { protocolToken := { address := "0xb", name := "B", symbol := "B",
                                  decimals := 8 },
               underlyingToken := { address := "0xub", name := "UB", symbol := "UB",
                                    decimals := 18 } })]
    [("0xv", { protocolToken := { address := "0xv", name := "V", symbol := "V",
                                  decimals := 18 },
               underlyingToken := { address := "0xu", name := "U", symbol := "U",
                                    decimals := 6 } })]
    (fun _ => 7) (fun _ => 3000000000005) (fun _ => 18) (fun _ => 6)
    none
    [{ address := "0xb", name := "B", symbol := "B", decimals := 8,
       balanceRaw := 7, type := TokenType.protocol, tokenId := none,
       tokens := [{ address := "0xub", name := "UB", symbol := "UB",
                    decimals := 18, balanceRaw := 7,
                    type := TokenType.underlying }] }]
    [{ address := "0xv", name := "V", symbol := "V", decimals := 18,
       balanceRaw := 3000000000005, type := TokenType.protocol,
       tokenId := some "0xv",
       tokens := [{ address := "0xu", name := "U", symbol := "U",
                    decimals := 6, balanceRaw := 3,
                    type := TokenType.underlying }] }]
    (by decide) (by decide)
  refine ⟨by decide, by decide, ?_⟩
  have h2 := h.2 _ (List.mem_singleton.mpr rfl)
  exact h2

theorem recordInsert_keys_nodup {md : Metadata} {k : String} {v : PoolMetadata}
    (h : (md.map Prod.fst).Nodup) : ((recordInsert md k v).map Prod.fst).Nodup := by
  unfold recordInsert
  by_cases hc : md.any (fun p => p.1 == k) = true
  · rw [if_pos hc]
    have heq : (md.map (fun p => if p.1 == k then (k, v) else p)).map Prod.fst
        = md.map Prod.fst := by
      rw [List.map_map]
      apply List.map_congr_left
      intro p _
      by_cases hpk : (p.1 == k) = true
      · simp only [Function.comp_apply, if_pos hpk]
        exact (beq_iff_eq.mp hpk).symm
      · simp only [Function.comp_apply, if_neg hpk]
    rw [heq]
    exact h
  · rw [if_neg hc]
    rw [List.map_append]
    have hk : k ∉ md.map Prod.fst := by
      intro hmem
      obtain ⟨p, hp, hpk⟩ := List.mem_map.mp hmem
      exact hc (List.any_eq_true.mpr ⟨p, hp, by rw [hpk]; exact beq_self_eq_true k⟩)
    simp [List.nodup_append, h, hk]

theorem buildMetadataLoop_keys_nodup (env : PoolChainEnv) :
    ∀ (ms : List String) (acc md : Metadata), (acc.map Prod.fst).Nodup →
      buildMetadataLoop env ms acc = .ok md → (md.map Prod.fst).Nodup := by
  intro ms
  induction ms with
  | nil =>
    intro acc md h hl
    unfold buildMetadataLoop at hl
    cases hl
    exact h
  | cons m ms ih =>
    intro acc md h hl
    unfold buildMetadataLoop at hl
    simp only [bind, Except.bind] at hl
    cases hs : buildMetadataStep env acc m with
    | error e => rw [hs] at hl; cases hl
    | ok acc' =>
      rw [hs] at hl
      have hacc' : (acc'.map Prod.fst).Nodup := by
        unfold buildMetadataStep at hs
        cases hr : resolveSupplyTokenAddress env m with
        | error e => simp [bind, Except.bind, hr] at hs
        | ok a =>
          simp only [bind, Except.bind, hr, pure, Except.pure, Except.ok.injEq] at hs
          rw [← hs]
          exact recordInsert_keys_nodup h
      exact ih acc' md hacc' hl

/-! ### C6 -/

/-- C6: metadata construction is idempotent and cached — after a first
`buildMetadata` call that enumerated the registry and populated the cache, a
second call on the same instance returns the same mapping without touching the
registry (the enumeration flag is `false`), and the mapping has no duplicate
keys.  The Compound base keeps the cache in the instance field
`_metadataCache`; the Aave leaves obtain the same behaviour from the
spec-modelled `CacheToFile` decorator around their cacheless base method. -/
theorem buildMetadata_idempotent_and_cached
    (env envA : PoolChainEnv) (md mdA : Metadata) (c cA : Option Metadata)
    (hc : CompoundPool.buildMetadata env none = .ok (md, c, true))
    (ha : AavePool.buildMetadataCached envA none = .ok (mdA, cA, true)) :
    CompoundPool.buildMetadata env c = .ok (md, c, false) ∧
    (md.map Prod.fst).Nodup ∧
    AavePool.buildMetadataCached envA cA = .ok (mdA, cA, false) ∧
    (mdA.map Prod.fst).Nodup := by
  unfold CompoundPool.buildMetadata at hc
  simp only [bind, Except.bind] at hc
  unfold AavePool.buildMetadataCached AavePool.buildMetadata at ha
  simp only [bind, Except.bind] at ha
  cases hb : buildMetadataObject env with
  | error e => rw [hb] at hc; cases hc
  | ok md' =>
    rw [hb] at hc
    simp only [pure, Except.pure, Except.ok.injEq, Prod.mk.injEq] at hc
    obtain ⟨hmd, hcache, -⟩ := hc
    subst hmd
    subst hcache
    cases hbA : buildMetadataObject envA with
    | error e => rw [hbA] at ha; cases ha
    | ok mdA' =>
      rw [hbA] at ha
      simp only [pure, Except.pure, Except.ok.injEq, Prod.mk.injEq] at ha
      obtain ⟨hmdA, hcacheA, -⟩ := ha
      subst hmdA
      subst hcacheA
      refine ⟨rfl, ?_, rfl, ?_⟩
      · exact buildMetadataLoop_keys_nodup env env.markets [] _ (by simp) hb
      · exact buildMetadataLoop_keys_nodup envA envA.markets [] _ (by simp) hbA

/-- Witness for C6 on a one-market registry. -/
theorem buildMetadata_idempotent_and_cached_witness :
    CompoundPool.buildMetadata
      { markets := ["0xm"], underlyingResult := fun _ => .ok "0xu",
        tokenMeta := fun a => { address := a, name := "T", symbol := "T", decimals := 0 } }
      none =
      .ok ([("0xm", { protocolToken := { address := "0xm", name := "T", symbol := "T",
                                         decimals := 0 },
                      underlyingToken := { address := "0xu", name := "T", symbol := "T",
                                           decimals := 0 } })],
           some [("0xm", { protocolToken := { address := "0xm", name := "T", symbol := "T",
                                              decimals := 0 },
                           underlyingToken := { address := "0xu", name := "T", symbol := "T",
                                                decimals := 0 } })],
           true) ∧
    CompoundPool.buildMetadata
      { markets := ["0xm"], underlyingResult := fun _ => .ok "0xu",
        tokenMeta := fun a => { address := a, name := "T", symbol := "T", decimals := 0 } }
      (some [("0xm", { protocolToken := { address := "0xm", name := "T", symbol := "T",
                                          decimals := 0 },
                       underlyingToken := { address := "0xu", name := "T", symbol := "T",
                                            decimals := 0 } })]) =
      .ok ([("0xm", { protocolToken := { address := "0xm", name := "T", symbol := "T",
                                         decimals := 0 },
                      underlyingToken := { address := "0xu", name := "T", symbol := "T",
                                           decimals := 0 } })],
           some [("0xm", { protocolToken := { address := "0xm", name := "T", symbol := "T",
                                              decimals := 0 },
                           underlyingToken := { address := "0xu", name := "T", symbol := "T",
                                                decimals := 0 } })],
           false) ∧
    AavePool.buildMetadataCached
      { markets := ["0xm"], underlyingResult := fun _ => .ok "0xu",
        tokenMeta := fun a => { address := a, name := "T", symbol := "T", decimals := 0 } }
      (some [("0xm", { protocolToken := { address := "0xm", name := "T", symbol := "T",
                                          decimals := 0 },
                       underlyingToken := { address := "0xu", name := "T", symbol := "T",
                                            decimals := 0 } })]) =
      .ok ([("0xm", { protocolToken := { address := "0xm", name := "T", symbol := "T",
                                         decimals := 0 },
                      underlyingToken := { address := "0xu", name := "T", symbol := "T",
                                           decimals := 0 } })],
           some [("0xm", { protocolToken := { address := "0xm", name := "T", symbol := "T",
                                              decimals := 0 },
                           underlyingToken := { address := "0xu", name := "T", symbol := "T",
                                                decimals := 0 } })],
           false) ∧
    ([("0xm", { protocolToken := { address := "0xm", name := "T", symbol := "T",
                                   decimals := 0 },
                underlyingToken := { address := "0xu", name := "T", symbol := "T",
                                     decimals := 0 } })].map
        (Prod.fst (α := String) (β := PoolMetadata))).Nodup := by
  have h := buildMetadata_idempotent_and_cached
    { markets := ["0xm"], underlyingResult := fun _ => .ok "0xu",
      tokenMeta := fun a => { address := a, name := "T", symbol := "T", decimals := 0 } }
    { markets := ["0xm"], underlyingResult := fun _ => .ok "0xu",
      tokenMeta := fun a => { address := a, name := "T", symbol := "T", decimals := 0 } }
    [("0xm", { protocolToken := { address := "0xm", name := "T", symbol := "T",
                                  decimals := 0 },
               underlyingToken := { address := "0xu", name := "T", symbol := "T",
                                    decimals := 0 } })]
    [("0xm", { protocolToken := { address := "0xm", name := "T", symbol := "T",
                                  decimals := 0 },
               underlyingToken := { address := "0xu", name := "T", symbol := "T",
                                    decimals := 0 } })]
    (some [("0xm", { protocolToken := { address := "0xm", name := "T", symbol := "T",
                                        decimals := 0 },
                     underlyingToken := { address := "0xu", name := "T", symbol := "T",
                                          decimals := 0 } })])
    (some [("0xm", { protocolToken := { address := "0xm", name := "T", symbol := "T",
                                        decimals := 0 },
                     underlyingToken := { address := "0xu", name := "T", symbol := "T",
                                          decimals := 0 } })])
    (by decide) (by decide)
  exact ⟨by decide, h.1, h.2.2.1, h.2.2.2⟩

/-! ### C7 -/

theorem resolveSupplyTokenAddress_ok_of_truthy {env : PoolChainEnv} {m : String}
    {e : JsError} (he : env.underlyingResult m = .error e) (ht : e.truthy = true) :
    resolveSupplyTokenAddress env m = .ok ZERO_ADDRESS := by
  unfold resolveSupplyTokenAddress
  rw [he]
  simp [ht]

theorem buildMetadataLoop_ok_of_truthy (env : PoolChainEnv) :
    ∀ (ms : List String) (acc : Metadata),
      (∀ m ∈ ms, ∀ e, env.underlyingResult m = .error e → e.truthy = true) →
      ∃ md, buildMetadataLoop env ms acc = .ok md := by
  intro ms
  induction ms with
  | nil => intro acc _; exact ⟨acc, rfl⟩
  | cons m ms ih =>
    intro acc hall
    have hstep : ∃ acc', buildMetadataStep env acc m = .ok acc' := by
      cases hr : env.underlyingResult m with
      | ok a =>
        refine ⟨recordInsert acc (env.tokenMeta m).address
          { protocolToken := env.tokenMeta m, underlyingToken := env.tokenMeta a }, ?_⟩
        unfold buildMetadataStep
        simp only [bind, Except.bind, resolveSupplyTokenAddress, hr, pure, Except.pure]
      | error e =>
        have ht := hall m (List.mem_cons_self m ms) e hr
        refine ⟨recordInsert acc (env.tokenMeta m).address
          { protocolToken := env.tokenMeta m, underlyingToken := env.tokenMeta ZERO_ADDRESS },
          ?_⟩
        unfold buildMetadataStep
        simp only [bind, Except.bind, resolveSupplyTokenAddress_ok_of_truthy hr ht,
          pure, Except.pure]
    obtain ⟨acc', hacc'⟩ := hstep
    obtain ⟨md, hmd⟩ := ih acc' (fun m' hm' => hall m' (List.mem_cons_of_mem m hm'))
    refine ⟨md, ?_⟩
    unfold buildMetadataLoop
    simp only [bind, Except.bind, hacc', hmd]

/-- C7 counterexample: a market whose underlying-asset call rejects with a
falsy reason (`if (err) return ZERO_ADDRESS; throw err` re-throws falsy
`err`) makes the whole metadata construction abort with that very rejection —
the failure is propagated, contradicting the claim's "for every market whose
underlying-asset contract call fails, the failure is not propagated". -/
theorem buildMetadata_falsy_rejection_propagates :
    buildMetadataObject
      { markets := ["0xm"],
        underlyingResult := fun _ => .error { truthy := false },
        tokenMeta := fun a => { address := a, name := "T", symbol := "T", decimals := 0 } } =
      .error { truthy := false } ∧
    CompoundPool.buildMetadata
      { markets := ["0xm"],
        underlyingResult := fun _ => .error { truthy := false },
        tokenMeta := fun a => { address := a, name := "T", symbol := "T", decimals := 0 } }
      none =
      .error { truthy := false } :=
  ⟨by decide, by decide⟩

/-- C7 (amended): during metadata construction, a market whose
underlying-asset call fails with a truthy rejection reason is recorded with
the zero address as its underlying asset, and when every failing market's
rejection reason is truthy the whole build succeeds; a falsy rejection reason
is re-thrown and aborts the build. -/
theorem buildMetadata_truthy_failure_zero_address
    (env : PoolChainEnv) (m : String) (acc : Metadata) (e : JsError)
    (he : env.underlyingResult m = .error e) (ht : e.truthy = true)
    (hall : ∀ m' ∈ env.markets, ∀ e', env.underlyingResult m' = .error e' →
      e'.truthy = true) :
    buildMetadataStep env acc m =
      .ok (recordInsert acc (env.tokenMeta m).address
        { protocolToken := env.tokenMeta m,
          underlyingToken := env.tokenMeta ZERO_ADDRESS }) ∧
    ∃ md, buildMetadataObject env = .ok md := by
  constructor
  · unfold buildMetadataStep
    simp only [bind, Except.bind, resolveSupplyTokenAddress_ok_of_truthy he ht,
      pure, Except.pure]
  · exact buildMetadataLoop_ok_of_truthy env env.markets [] hall

/-- Witness for C7 (amended): a truthy rejection is turned into a
zero-address record. -/
theorem buildMetadata_truthy_failure_zero_address_witness :
    buildMetadataStep
      { markets := ["0xm"],
        underlyingResult := fun _ => .error { truthy := true },
        tokenMeta := fun a => { address := a, name := "T", symbol := "T", decimals := 0 } }
      [] "0xm" =
      .ok [("0xm", { protocolToken := { address := "0xm", name := "T", symbol := "T",
                                        decimals := 0 },
                     underlyingToken := { address := "0x0000000000000000000000000000000000000000",
                                          name := "T", symbol := "T", decimals := 0 } })] := by
  have h := buildMetadata_truthy_failure_zero_address
    { markets := ["0xm"],
      underlyingResult := fun _ => .error { truthy := true },
      tokenMeta := fun a => { address := a, name := "T", symbol := "T", decimals := 0 } }
    "0xm" [] { truthy := true } rfl rfl
    (by intro m' _ e' he'; cases he'; rfl)
  exact h.1

/-! ### C8 -/

/-- C8: every movement returned by a movement query carries as its
`protocolToken` the metadata of exactly the queried market address — directly
on the Compound base, which pre-fetches it from the query input, and on the
Aave base as well, where the protocol token is re-derived from each event's
`_poolToken` argument but the topic filter pins that argument to the queried
address. -/
theorem movements_protocol_token_matches_query
    (md : Metadata) (addr userAddress : String) (pm : PoolMetadata)
    (k : PoolEventKind) (fromBlock toBlock : Nat) (logC logA : List PoolEvent)
    (msC msA : List MovementsByBlock)
    (h : md.lookup addr = some pm)
    (hc : CompoundPool.getMovements md logC userAddress addr fromBlock toBlock k = .ok msC)
    (ha : AavePool.getMovements md logA userAddress addr fromBlock toBlock k = .ok msA) :
    (∀ m ∈ msC, m.protocolToken = pm.protocolToken) ∧
    (∀ m ∈ msA, m.protocolToken = pm.protocolToken) := by
  have hfp : fetchPoolMetadata md addr = .ok pm := by
    unfold fetchPoolMetadata
    rw [h]
  constructor
  · intro m hm
    simp only [CompoundPool.getMovements, fetchProtocolTokenMetadata,
      fetchUnderlyingTokensMetadata, hfp, bind, Except.bind, pure, Except.pure] at hc
    obtain ⟨e, _, hok⟩ := exceptMapM_ok_forall hc m hm
    simp only [pure, Except.pure, Except.ok.injEq] at hok
    subst hok
    rfl
  · intro m hm
    unfold AavePool.getMovements at ha
    obtain ⟨e, he, hok⟩ := exceptMapM_ok_forall ha m hm
    have hpt : poolTokenArg e = addr :=
      aaveFilterMatches_poolTokenArg (mem_queryFilter_matches he)
    simp only [fetchProtocolTokenMetadata, fetchUnderlyingTokensMetadata, hpt, hfp,
      bind, Except.bind, pure, Except.pure, Except.ok.injEq] at hok
    subst hok
    rfl

/-- Witness for C8: both families map a matching `Supplied` log to a movement
whose protocol token is the queried market's metadata. -/
theorem movements_protocol_token_matches_query_witness :
    CompoundPool.getMovements
      [("0xm", { protocolToken := { address := "0xm", name := "M", symbol := "M",
                                    decimals := 8 },
                 underlyingToken := { address := "0xu", name := "U", symbol := "U",
                                      decimals := 18 } })]
      [{ kind := .supplied, arg1 := "0xz", arg2 := "0xw", arg3 := "0xm", amount := 42,
         blockNumber := 5, transactionHash := "0xt" }]
      "0xw" "0xm" 0 10 .supplied =
      .ok [{ protocolToken := { address := "0xm", name := "M", symbol := "M", decimals := 8 },
             tokens := [{ address := "0xu", name := "U", symbol := "U", decimals := 18,
                          balanceRaw := 42, type := TokenType.underlying }],
             blockNumber := 5, transactionHash := "0xt" }] ∧
    ({ protocolToken := { address := "0xm", name := "M", symbol := "M", decimals := 8 },
       tokens := [{ address := "0xu", name := "U", symbol := "U", decimals := 18,
                    balanceRaw := 42, type := TokenType.underlying }],
       blockNumber := 5, transactionHash := "0xt" } : MovementsByBlock).protocolToken =
      { address := "0xm", name := "M", symbol := "M", decimals := 8 } := by
  have h := movements_protocol_token_matches_query
    [("0xm", { protocolToken := { address := "0xm", name := "M", symbol := "M",
                                  decimals := 8 },
               underlyingToken := { address := "0xu", name := "U", symbol := "U",
                                    decimals := 18 } })]
    "0xm" "0xw"
    { protocolToken := { address := "0xm", name := "M", symbol := "M", decimals := 8 },
      underlyingToken := { address := "0xu", name := "U", symbol := "U", decimals := 18 } }
    .supplied 0 10
    [{ kind := .supplied, arg1 := "0xz", arg2 := "0xw", arg3 := "0xm", amount := 42,
       blockNumber := 5, transactionHash := "0xt" }]
    [{ kind := .supplied, arg1 := "0xz", arg2 := "0xw", arg3 := "0xm", amount := 42,
       blockNumber := 5, transactionHash := "0xt" }]
    [{ protocolToken := { address := "0xm", name := "M", symbol := "M", decimals := 8 },
       tokens := [{ address := "0xu", name := "U", symbol := "U", decimals := 18,
                    balanceRaw := 42, type := TokenType.underlying }],
       blockNumber := 5, transactionHash := "0xt" }]
    [{ protocolToken := { address := "0xm", name := "M", symbol := "M", decimals := 8 },
       tokens := [{ address := "0xu", name := "U", symbol := "U", decimals := 18,
                    balanceRaw := 42, type := TokenType.underlying }],
       blockNumber := 5, transactionHash := "0xt" }]
    (by decide) (by decide) (by decide)
  exact ⟨by decide, h.1 _ (List.mem_singleton.mpr rfl)⟩

/-! ### C2 -/

/-- The lens total pair consulted for a market, per position type (supply
products read `getTotalMarketSupply`, borrow products `getTotalMarketBorrow`). -/
def lensTotalPair (lens : LensOracle) (positionType : PositionType) (addr : String) :
    Nat × Nat :=
  match positionType with
  | .supply => lens.getTotalMarketSupply addr
  | .borrow => lens.getTotalMarketBorrow addr

/-- C2: every per-market TVL record reports as `totalSupplyRaw` the sum of the
two totals (pool side and peer-to-peer side) returned by the lens for that
market — wad-divided by the cToken's stored exchange rate on the
Compound-optimizer family, and the bare sum (no exchange-rate correction) on
the Aave-optimizer family. -/
theorem tvl_sums_pool_and_p2p
    (md : Metadata) (positionType : PositionType) (lens : LensOracle)
    (exchangeRateStored : String → Nat) (rc ra : ProtocolTokenTvl)
    (hc : rc ∈ CompoundPool.getTotalValueLocked md positionType lens exchangeRateStored)
    (ha : ra ∈ AavePool.getTotalValueLocked md positionType lens) :
    rc.totalSupplyRaw =
      wadDiv ((lensTotalPair lens positionType rc.address).1 +
              (lensTotalPair lens positionType rc.address).2)
        (exchangeRateStored rc.address) ∧
    ra.totalSupplyRaw =
      (lensTotalPair lens positionType ra.address).1 +
      (lensTotalPair lens positionType ra.address).2 := by
  constructor
  · unfold CompoundPool.getTotalValueLocked at hc
    obtain ⟨t, _, ht⟩ := List.mem_map.mp hc
    subst ht
    cases positionType <;> simp [lensTotalPair, Nat.add_comm]
  · unfold AavePool.getTotalValueLocked at ha
    obtain ⟨t, _, ht⟩ := List.mem_map.mp ha
    subst ht
    cases positionType <;> simp [lensTotalPair]

/-- Witness for C2 on a one-market mapping: the Compound record wad-divides
`6 + 5 = 11` by the exchange rate `2·10^18` (half-up, giving 6), the Aave
record reports the bare sum `11`. -/
theorem tvl_sums_pool_and_p2p_witness :
    CompoundPool.getTotalValueLocked
      [("0xm", { protocolToken := { address := "0xm", name := "M", symbol := "M",
                                    decimals := 8 },
                 underlyingToken := { address := "0xu", name := "U", symbol := "U",
                                      decimals := 18 } })]
      .borrow
      { getTotalMarketSupply := fun _ => (3, 4), getTotalMarketBorrow := fun _ => (5, 6) }
      (fun _ => 2 * 10 ^ 18) =
      [{ address := "0xm", name := "M", symbol := "M", decimals := 8,
         type := TokenType.protocol, totalSupplyRaw := 6 }] ∧
    (6 : Nat) = wadDiv (5 + 6) (2 * 10 ^ 18) ∧
    AavePool.getTotalValueLocked
      [("0xm", { protocolToken := { address := "0xm", name := "M", symbol := "M",
                                    decimals := 8 },
                 underlyingToken := { address := "0xu", name := "U", symbol := "U",
                                      decimals := 18 } })]
      .borrow
      { getTotalMarketSupply := fun _ => (3, 4), getTotalMarketBorrow := fun _ => (5, 6) } =
      [{ address := "0xm", name := "M", symbol := "M", decimals := 8,
         type := TokenType.protocol, totalSupplyRaw := 11 }] ∧
    (11 : Nat) = 5 + 6 := by
  have h := tvl_sums_pool_and_p2p
    [("0xm", { protocolToken := { address := "0xm", name := "M", symbol := "M",
                                  decimals := 8 },
               underlyingToken := { address := "0xu", name := "U", symbol := "U",
                                    decimals := 18 } })]
    .borrow
    { getTotalMarketSupply := fun _ => (3, 4), getTotalMarketBorrow := fun _ => (5, 6) }
    (fun _ => 2 * 10 ^ 18)
    { address := "0xm", name := "M", symbol := "M", decimals := 8,
      type := TokenType.protocol, totalSupplyRaw := 6 }
    { address := "0xm", name := "M", symbol := "M", decimals := 8,
      type := TokenType.protocol, totalSupplyRaw := 11 }
    (by decide) (by decide)
  exact ⟨by decide, h.1, by decide, h.2⟩

/-! ### C10 -/

/-- C10: both optimizer (pool) base adapters throw `NotImplementedError` from
`unwrap` for every input; only the vault adapter implements `unwrap`, as a
one-to-one rate over the vault's single underlying token. -/
theorem unwrap_not_implemented_on_pools_one_to_one_on_vault
    (input : UnwrapInput) (md : Metadata) (addr : String) (pm : PoolMetadata)
    (h : md.lookup addr = some pm) :
    CompoundPool.unwrap input = .error .notImplementedError ∧
    AavePool.unwrap input = .error .notImplementedError ∧
    BlueVault.unwrap md addr = .ok (unwrapOneToOne pm.protocolToken [pm.underlyingToken]) := by
  refine ⟨rfl, rfl, ?_⟩
  simp only [BlueVault.unwrap, fetchProtocolTokenMetadata, getUnderlyingToken,
    fetchPoolMetadata, h, bind, Except.bind, pure, Except.pure]

/-- Witness for C10 at a concrete one-vault metadata mapping. -/
theorem unwrap_not_implemented_on_pools_one_to_one_on_vault_witness :
    ([("0xv", { protocolToken := { address := "0xv", name := "Vault", symbol := "V",
                                   decimals := 18 },
                underlyingToken := { address := "0xu", name := "USD", symbol := "U",
                                     decimals := 6 } })] : Metadata).lookup "0xv" =
        some { protocolToken := { address := "0xv", name := "Vault", symbol := "V",
                                  decimals := 18 },
               underlyingToken := { address := "0xu", name := "USD", symbol := "U",
                                    decimals := 6 } } ∧
    CompoundPool.unwrap { protocolTokenAddress := "0xv" } = .error .notImplementedError ∧
    AavePool.unwrap { protocolTokenAddress := "0xv" } = .error .notImplementedError ∧
    BlueVault.unwrap
        [("0xv", { protocolToken := { address := "0xv", name := "Vault", symbol := "V",
                                      decimals := 18 },
                   underlyingToken := { address := "0xu", name := "USD", symbol := "U",
                                        decimals := 6 } })] "0xv" =
      .ok (unwrapOneToOne { address := "0xv", name := "Vault", symbol := "V", decimals := 18 }
            [{ address := "0xu", name := "USD", symbol := "U", decimals := 6 }]) := by
  have h := unwrap_not_implemented_on_pools_one_to_one_on_vault
    { protocolTokenAddress := "0xv" }
    [("0xv", { protocolToken := { address := "0xv", name := "Vault", symbol := "V",
                                  decimals := 18 },
               underlyingToken := { address := "0xu", name := "USD", symbol := "U",
                                    decimals := 6 } })] "0xv"
    { protocolToken := { address := "0xv", name := "Vault", symbol := "V", decimals := 18 },
      underlyingToken := { address := "0xu", name := "USD", symbol := "U", decimals := 6 } }
    (by decide)
  exact ⟨by decide, h.1, h.2.1, h.2.2⟩

/-! ### C3 -/

/-- C3: a protocol-token address absent from the metadata mapping makes every
operation that looks the address up — the metadata fetches, the Compound
movement queries, the vault movement queries and the vault `unwrap` — throw
`new Error('Protocol token pool not found')` rather than return an empty or
default result; the Aave movement query, which looks up the address through
each matching event's `_poolToken`, throws the same error as soon as any event
matches its filter. -/
theorem unknown_address_always_pool_not_found
    (md : Metadata) (addr userAddress : String) (k : PoolEventKind)
    (vk : VaultEventKind) (logP logA : List PoolEvent) (logV : List VaultEvent)
    (fromBlock toBlock : Nat) (h : md.lookup addr = none) :
    fetchPoolMetadata md addr = .error (.errorWithMessage "Protocol token pool not found") ∧
    fetchProtocolTokenMetadata md addr =
      .error (.errorWithMessage "Protocol token pool not found") ∧
    fetchUnderlyingTokensMetadata md addr =
      .error (.errorWithMessage "Protocol token pool not found") ∧
    getUnderlyingToken md addr =
      .error (.errorWithMessage "Protocol token pool not found") ∧
    CompoundPool.getMovements md logP userAddress addr fromBlock toBlock k =
      .error (.errorWithMessage "Protocol token pool not found") ∧
    BlueVault.getMovements md logV userAddress addr fromBlock toBlock vk =
      .error (.errorWithMessage "Protocol token pool not found") ∧
    BlueVault.unwrap md addr =
      .error (.errorWithMessage "Protocol token pool not found") ∧
    (queryFilter logA (aaveFilterMatches userAddress addr k) fromBlock toBlock ≠ [] →
      AavePool.getMovements md logA userAddress addr fromBlock toBlock k =
        .error (.errorWithMessage "Protocol token pool not found")) := by
  have hfetch : fetchPoolMetadata md addr =
      .error (.errorWithMessage "Protocol token pool not found") := by
    unfold fetchPoolMetadata
    rw [h]
  refine ⟨hfetch, ?_, ?_, ?_, ?_, ?_, ?_, ?_⟩
  · simp only [fetchProtocolTokenMetadata, hfetch, bind, Except.bind]
  · simp only [fetchUnderlyingTokensMetadata, hfetch, bind, Except.bind]
  · simp only [getUnderlyingToken, hfetch, bind, Except.bind]
  · simp only [CompoundPool.getMovements, fetchProtocolTokenMetadata, hfetch,
      bind, Except.bind]
  · simp only [BlueVault.getMovements, fetchProtocolTokenMetadata, hfetch,
      bind, Except.bind]
  · simp only [BlueVault.unwrap, fetchProtocolTokenMetadata, hfetch, bind, Except.bind]
  · intro hne
    cases hq : queryFilter logA (aaveFilterMatches userAddress addr k) fromBlock toBlock with
    | nil => exact absurd hq hne
    | cons e rest =>
      have he : e ∈ queryFilter logA (aaveFilterMatches userAddress addr k)
          fromBlock toBlock := by
        rw [hq]; exact List.mem_cons_self e rest
      have hpt : poolTokenArg e = addr :=
        aaveFilterMatches_poolTokenArg (mem_queryFilter_matches he)
      simp only [AavePool.getMovements, hq]
      apply exceptMapM_cons_error
      simp only [fetchProtocolTokenMetadata, hpt, hfetch, bind, Except.bind]

/-- Witness for C3 at the empty metadata mapping and an unknown address. -/
theorem unknown_address_always_pool_not_found_witness :
    ([] : Metadata).lookup "0xdead" = none ∧
    fetchPoolMetadata [] "0xdead" =
      .error (.errorWithMessage "Protocol token pool not found") ∧
    CompoundPool.getMovements [] [] "0xu" "0xdead" 0 7 .supplied =
      .error (.errorWithMessage "Protocol token pool not found") ∧
    BlueVault.unwrap [] "0xdead" =
      .error (.errorWithMessage "Protocol token pool not found") :=
  have h := unknown_address_always_pool_not_found [] "0xdead" "0xu" .supplied .deposit
    [] [] [] 0 7 rfl
  ⟨rfl, h.1, h.2.2.2.2.1, h.2.2.2.2.2.2.1⟩

/-! ### C9 -/

theorem vaultPositionOfToken_rangeError {md : Metadata} {bal vDec aDec : String → Nat}
    {pt : Erc20Metadata} {pm : PoolMetadata}
    (hpm : fetchPoolMetadata md pt.address = .ok pm)
    (hb : 0 < bal pt.address)
    (hd : vDec pt.address < aDec pm.underlyingToken.address) :
    BlueVault.positionOfToken md bal vDec aDec pt = .error .rangeError := by
  unfold BlueVault.positionOfToken
  simp only [getUnderlyingToken, hpm, bind, Except.bind, pure, Except.pure]
  rw [if_pos hb, if_pos hd]

theorem vaultPositionOfToken_ok_of_le {md : Metadata} {bal vDec aDec : String → Nat}
    {pt : Erc20Metadata} {pm : PoolMetadata}
    (hpm : fetchPoolMetadata md pt.address = .ok pm)
    (hle : aDec pm.underlyingToken.address ≤ vDec pt.address) :
    ∃ r, BlueVault.positionOfToken md bal vDec aDec pt = .ok r := by
  unfold BlueVault.positionOfToken
  simp only [getUnderlyingToken, hpm, bind, Except.bind, pure, Except.pure]
  by_cases hb : 0 < bal pt.address
  · rw [if_pos hb, if_neg (Nat.not_lt.mpr hle)]
    exact ⟨_, rfl⟩
  · rw [if_neg hb]
    exact ⟨none, rfl⟩

/-- C9 counterexample: a vault whose asset decimals (18) exceed its vault
decimals (6) but whose user balance reads 0 is skipped before the exponent
expression is evaluated — `getPositions` succeeds with the empty list instead
of failing as the claim requires for every such input. -/
theorem vault_negative_exponent_skipped_on_zero_balance :
    BlueVault.getPositions
      [("0xv", { protocolToken := { address := "0xv", name := "V", symbol := "V",
                                    decimals := 6 },
                 underlyingToken := { address := "0xu", name := "U", symbol := "U",
                                      decimals := 18 } })]
      none (fun _ => 0) (fun _ => 6) (fun _ => 18) = .ok [] ∧
    (6 : Nat) < 18 :=
  ⟨by decide, by decide⟩

/-- C9 (amended): the vault decomposition's exponent is evaluated only for
vaults with a positive balance — whenever some filtered vault has a positive
balance and asset decimals exceeding the vault decimals, `10n ** (vaultDecimal
- assetDecimals)` raises and `getPositions` fails; when every filtered vault
has vault decimals at least its asset decimals the computation is total
(returning the truncating integer division stated by C5). -/
theorem vault_decimals_exponent_precondition
    (md : Metadata) (filt : Option (List String)) (bal vDec aDec : String → Nat) :
    (∀ pt ∈ BlueVault.filteredTokens md filt, ∀ pm,
        fetchPoolMetadata md pt.address = .ok pm →
        0 < bal pt.address →
        vDec pt.address < aDec pm.underlyingToken.address →
        (BlueVault.getPositions md filt bal vDec aDec).isOk = false) ∧
    ((∀ pt ∈ BlueVault.filteredTokens md filt, ∃ pm,
        fetchPoolMetadata md pt.address = .ok pm ∧
        aDec pm.underlyingToken.address ≤ vDec pt.address) →
      (BlueVault.getPositions md filt bal vDec aDec).isOk = true) := by
  constructor
  · intro pt hpt pm hpm hb hd
    cases hres : BlueVault.getPositions md filt bal vDec aDec with
    | error e => rfl
    | ok ps =>
      exfalso
      unfold BlueVault.getPositions at hres
      obtain ⟨r, hr⟩ := exceptFilterMapM_ok_elements hres pt hpt
      rw [vaultPositionOfToken_rangeError hpm hb hd] at hr
      cases hr
  · intro hok
    have hall : ∀ pt ∈ BlueVault.filteredTokens md filt,
        ∃ r, BlueVault.positionOfToken md bal vDec aDec pt = .ok r := by
      intro pt hpt
      obtain ⟨pm, hpm, hle⟩ := hok pt hpt
      exact vaultPositionOfToken_ok_of_le hpm hle
    obtain ⟨ps, hps⟩ := exceptFilterMapM_ok_of_forall hall
    show (exceptFilterMapM _ _).isOk = true
    rw [hps]
    rfl

/-- Witness for C9 (amended): the same vault shape fails with a positive
balance and asset decimals 18 > vault decimals 6, and succeeds with vault
decimals 18 ≥ asset decimals 6. -/
theorem vault_decimals_exponent_precondition_witness :
    (BlueVault.getPositions
      [("0xv", { protocolToken := { address := "0xv", name := "V", symbol := "V",
                                    decimals := 6 },
                 underlyingToken := { address := "0xu", name := "U", symbol := "U",
                                      decimals := 18 } })]
      none (fun _ => 5) (fun _ => 6) (fun _ => 18)).isOk = false ∧
    (BlueVault.getPositions
      [("0xv", { protocolToken := { address := "0xv", name := "V", symbol := "V",
                                    decimals := 18 },
                 underlyingToken := { address := "0xu", name := "U", symbol := "U",
                                      decimals := 6 } })]
      none (fun _ => 5) (fun _ => 18) (fun _ => 6)).isOk = true := by
  constructor
  · exact (vault_decimals_exponent_precondition
      [("0xv", { protocolToken := { address := "0xv", name := "V", symbol := "V",
                                    decimals := 6 },
                 underlyingToken := { address := "0xu", name := "U", symbol := "U",
                                      decimals := 18 } })]
      none (fun _ => 5) (fun _ => 6) (fun _ => 18)).1
      { address := "0xv", name := "V", symbol := "V", decimals := 6 }
      (by decide)
      { protocolToken := { address := "0xv", name := "V", symbol := "V", decimals := 6 },
        underlyingToken := { address := "0xu", name := "U", symbol := "U", decimals := 18 } }
      (by decide) (by decide) (by decide)
  · refine (vault_decimals_exponent_precondition
      [("0xv", { protocolToken := { address := "0xv", name := "V", symbol := "V",
                                    decimals := 18 },
                 underlyingToken := { address := "0xu", name := "U", symbol := "U",
                                      decimals := 6 } })]
      none (fun _ => 5) (fun _ => 18) (fun _ => 6)).2 ?_
    intro pt hpt
    have hpt' : pt = { address := "0xv", name := "V", symbol := "V", decimals := 18 } :=
      List.mem_singleton.mp hpt
    subst hpt'
    exact ⟨{ protocolToken := { address := "0xv", name := "V", symbol := "V",
                                decimals := 18 },
             underlyingToken := { address := "0xu", name := "U", symbol := "U",
                                  decimals := 6 } },
           by decide, by decide⟩

/-! ### C1 -/

/-- C1 (failing evaluation): the vault adapter's movement mapping stores the
event amount as `Number(eventData.assets)` before converting it back with
`BigInt`, so a `Deposit` log of `2 ^ 53 + 1 = 9007199254740993` asset units
comes back as `9007199254740992` — the movement does not carry the log's
underlying-token amount, refuting the claim for the vault adapter (the two
optimizer bases copy `_amount` without conversion). -/
theorem vault_movements_number_roundtrip_alters_large_amount :
    BlueVault.getDeposits
      [("0xv", { protocolToken := { address := "0xv", name := "V", symbol := "V",
                                    decimals := 18 },
                 underlyingToken := { address := "0xu", name := "U", symbol := "U",
                                      decimals := 6 } })]
      [{ kind := .deposit, sender := "0xs", receiver := "", owner := "0xw",
         assets := 9007199254740993, shares := 1, blockNumber := 9,
         transactionHash := "0xt" }]
      "0xw" "0xv" 0 100 =
      .ok [{ protocolToken := { address := "0xv", name := "V", symbol := "V",
                                decimals := 18 },
             tokens := [{ address := "0xu", name := "U", symbol := "U", decimals := 6,
                          balanceRaw := 9007199254740992,
                          type := TokenType.underlying }],
             blockNumber := 9, transactionHash := "0xt" }] ∧
    (9007199254740992 : Nat) ≠ 9007199254740993 := by
  have hlog2 : Nat.log2 9007199254740993 = 53 := by
    rw [Nat.log2_eq_log_two]
    apply Nat.log_eq_of_pow_le_of_lt_pow <;> norm_num
  have hjs : jsNumberRoundtrip 9007199254740993 = 9007199254740992 := by
    unfold jsNumberRoundtrip
    rw [if_neg (by norm_num), hlog2]
    decide
  have hres : BlueVault.getDeposits
      [("0xv", { protocolToken := { address := "0xv", name := "V", symbol := "V",
                                    decimals := 18 },
                 underlyingToken := { address := "0xu", name := "U", symbol := "U",
                                      decimals := 6 } })]
      [{ kind := .deposit, sender := "0xs", receiver := "", owner := "0xw",
         assets := 9007199254740993, shares := 1, blockNumber := 9,
         transactionHash := "0xt" }]
      "0xw" "0xv" 0 100 =
      .ok [{ protocolToken := { address := "0xv", name := "V", symbol := "V",
                                decimals := 18 },
             tokens := [{ address := "0xu", name := "U", symbol := "U", decimals := 6,
                          balanceRaw := jsNumberRoundtrip 9007199254740993,
                          type := TokenType.underlying }],
             blockNumber := 9, transactionHash := "0xt" }] := rfl
  rw [hjs] at hres
  exact ⟨hres, by norm_num⟩

end LQG
